import Mathlib

/-!
# godocker: a shallow embedding of the RAxML tool invocation and the container session

The development follows `raxml.go` and `godocker.go`.  Go `int` values are
mathematical integers wrapped to 64 bits where an arithmetic operation occurs,
Go `error` results are `Option Error` (`none` is `nil`), functions that return
a value together with an error are `Except Error _`, and everything the code
obtains from outside the repository (the host, the Docker daemon, the
filesystem) is an explicit argument.
-/

namespace Godocker

/-! ## Errors and integers -/

/-- An error value, identified by its message. -/
abbrev Error := String

/-- Two's complement wrap-around of a Go `int` (64 bits). -/
def wrapInt (x : Int) : Int := (x + 2 ^ 63) % 2 ^ 64 - 2 ^ 63

/-- The text produced by `fmt.Sprintf("%d", x)`. -/
def Sprintf_d (x : Int) : String := toString x

/-! ## The fixed tables of `raxml.go` -/

def RAXML_GTRGAMMA : Int := 0

def RAXML_IMAGE_V8_2_11 : Int := 0

def RAxMLModels : List String :=
  [ "GTRGAMMA",
    "GTRCAT",
    "PROTGAMMADAYHOFF",
    "PROTGAMMADCMUT",
    "PROTGAMMAJTT",
    "PROTGAMMAMTREV",
    "PROTGAMMAWAG",
    "PROTGAMMARTREV",
    "PROTGAMMACPREV",
    "PROTGAMMAVT",
    "PROTGAMMABLOSUM62",
    "PROTGAMMAMTMAM",
    "PROTGAMMALG",
    "PROTGAMMAMTART",
    "PROTGAMMAMTZOA",
    "PROTGAMMAPMB",
    "PROTGAMMAHIVB",
    "PROTGAMMAHIVW",
    "PROTGAMMAJTTDCMUT",
    "PROTGAMMAFLU",
    "PROTGAMMASTMTREV",
    "PROTGAMMADUMMY",
    "PROTGAMMADUMMY2",
    "PROTGAMMALG4M",
    "PROTGAMMALG4X",
    "PROTGAMMAGTR_UNLINKED",
    "PROTGAMMAGTR" ]

def RAxMLImages : List String :=
  [ "docker.io/evolbioinfo/raxml:v8.2.11" ]

/-! ## The tool configuration -/

structure RAxMLTool where
  inputalign : String
  outputtree : String
  model : Int
  gammacat : Int
  cpus : Int
  seed : Int
  image : Int
  runname : String
  force : Bool
  deriving DecidableEq, Repr

/-- The constructor `NewRAXMLTool`; fields it does not mention hold Go's zero values. -/
def NewRAXMLTool : RAxMLTool :=
  { inputalign := ""
    outputtree := ""
    model := RAXML_GTRGAMMA
    gammacat := 4
    cpus := 0
    seed := 12345
    image := RAXML_IMAGE_V8_2_11
    runname := "DOCKER"
    force := false }

def RAxMLTool.SetRunName (r : RAxMLTool) (name : String) : RAxMLTool :=
  { r with runname := name }

def RAxMLTool.RunName (r : RAxMLTool) : String := r.runname

def RAxMLTool.SetForce (r : RAxMLTool) (force : Bool) : RAxMLTool :=
  { r with force := force }

def RAxMLTool.Force (r : RAxMLTool) : Bool := r.force

def RAxMLTool.SetCpus (r : RAxMLTool) (cpus : Int) : RAxMLTool :=
  { r with cpus := cpus }

/-- The method `Cpus`; `numCPU` is the value of `runtime.NumCPU()`. -/
def RAxMLTool.Cpus (numCPU : Int) (r : RAxMLTool) : Int :=
  if r.cpus ≤ 0 ∨ r.cpus > numCPU then
    let cpus := wrapInt (numCPU - 1)
    if cpus ≤ 0 then 1 else cpus
  else
    r.cpus

def RAxMLTool.OutputTree (r : RAxMLTool) : String := r.outputtree

def RAxMLTool.InputAlign (r : RAxMLTool) : String := r.inputalign

/-- The method `ModelString`. -/
def RAxMLTool.ModelString (r : RAxMLTool) : Except Error String :=
  if r.model < (RAxMLModels.length : Int) ∧ r.model ≥ 0 then
    .ok (RAxMLModels.getD r.model.toNat "")
  else
    .error ("Invalid Model: " ++ Sprintf_d r.model)

/-- The `for i, m := range` loop of the two lookups by name: the first index
at or after `i` whose entry equals `name`. -/
def rangeFind (name : String) : List String → Nat → Option Nat
  | [], _ => none
  | m :: ms, i => if m = name then some i else rangeFind name ms (i + 1)

/-- The method `SetModelString`: the updated tool and the returned error. -/
def RAxMLTool.SetModelString (r : RAxMLTool) (model : String) : RAxMLTool × Option Error :=
  match rangeFind model RAxMLModels 0 with
  | some i => ({ r with model := (i : Int) }, none)
  | none => (r, some ("No such model: " ++ model))

/-- The method `SetModel`: the updated tool and the returned error. -/
def RAxMLTool.SetModel (r : RAxMLTool) (model : Int) : RAxMLTool × Option Error :=
  let err : Option Error :=
    if model < 0 ∨ model > (RAxMLModels.length : Int) then
      some ("No such model: " ++ Sprintf_d model)
    else
      none
  ({ r with model := model }, err)

/-- The method `SetImage`: the updated tool and the returned error. -/
def RAxMLTool.SetImage (r : RAxMLTool) (image : Int) : RAxMLTool × Option Error :=
  let err : Option Error :=
    if image < 0 ∨ image > (RAxMLImages.length : Int) then
      some ("No such image: " ++ Sprintf_d image)
    else
      none
  ({ r with image := image }, err)

/-- The method `SetImageString`: the updated tool and the returned error. -/
def RAxMLTool.SetImageString (r : RAxMLTool) (image : String) : RAxMLTool × Option Error :=
  match rangeFind image RAxMLImages 0 with
  | some i => ({ r with image := (i : Int) }, none)
  | none => (r, some ("No such image: " ++ image))

/-- The method `ImageString`. -/
def RAxMLTool.ImageString (r : RAxMLTool) : Except Error String :=
  if r.image < (RAxMLImages.length : Int) ∧ r.image ≥ 0 then
    .ok (RAxMLImages.getD r.image.toNat "")
  else
    .error ("Invalid image:  " ++ Sprintf_d r.image)

/-! ## Paths, the filesystem and the host -/

/-- The function `filepath.Base` of the Go library on a Unix host (the
separator is `/` and there is no volume name): the last element of the path
after trailing separators are dropped, `.` for the empty path and `/` for a
path made of separators only. -/
def filepathBase (path : String) : String :=
  if path = "" then "."
  else
    let stripped := path.data.reverse.dropWhile (fun ch => ch = '/')
    let last := stripped.takeWhile (fun ch => ch ≠ '/')
    if last = [] then "/" else String.mk last.reverse

/-- The reasons for which a filesystem call fails here. -/
inductive Errno where
  /-- No such file or directory. -/
  | ENOENT
  /-- A component of the path is not a directory. -/
  | ENOTDIR
  /-- Permission denied. -/
  | EACCES
  /-- Directory not empty. -/
  | ENOTEMPTY
  deriving DecidableEq, Repr

def Errno.Error : Errno → Error
  | .ENOENT => "no such file or directory"
  | .ENOTDIR => "not a directory"
  | .EACCES => "permission denied"
  | .ENOTEMPTY => "directory not empty"

/-- The error type `os.PathError`. -/
structure PathError where
  Op : String
  Path : String
  Err : Errno
  deriving DecidableEq, Repr

/-- The method `Error` of `os.PathError`. -/
def PathError.Error (e : PathError) : Error :=
  e.Op ++ " " ++ e.Path ++ ": " ++ e.Err.Error

/-- The host filesystem, as far as the calls of this program see it.
`entries` are the path strings under which a file or a directory is found.
`barred` are path strings whose lookup fails for another reason than absence
(a component that is a regular file, a directory that may not be searched).
`held` are entries that cannot be unlinked (a directory that is not empty, an
entry of a directory that may not be written).  `via` holds the pairs
`(p, q)` for which the path string `p` is found through the directory entry
that `q` names (another spelling of `q`, a path through a symbolic link `q`),
so that `p` is no longer found once `q` is removed. -/
structure FileSystem where
  entries : List String
  barred : List (String × Errno) := []
  held : List (String × Errno) := []
  via : List (String × String) := []
  deriving DecidableEq, Repr

/-- The error of `os.Stat(name)`. -/
def osStat (fs : FileSystem) (name : String) : Option PathError :=
  match fs.barred.lookup name with
  | some errno => some { Op := "stat", Path := name, Err := errno }
  | none =>
    if name ∈ fs.entries then none
    else some { Op := "stat", Path := name, Err := .ENOENT }

/-- The test `os.IsNotExist(err)`: the error says that the path is absent. -/
def osIsNotExist (err : Option PathError) : Bool :=
  match err with
  | some e => decide (e.Err = .ENOENT)
  | none => false

/-- Whether `os.Remove(name)` is free to unlink `name` where it exists. -/
def FileSystem.removable (fs : FileSystem) (name : String) : Bool :=
  (fs.barred.lookup name).isNone && (fs.held.lookup name).isNone

/-- The call `os.Remove(name)`: the filesystem after it and its error.  A
call that fails leaves the filesystem as it was. -/
def osRemove (fs : FileSystem) (name : String) : FileSystem × Option PathError :=
  match fs.barred.lookup name with
  | some errno => (fs, some { Op := "remove", Path := name, Err := errno })
  | none =>
    if name ∈ fs.entries then
      match fs.held.lookup name with
      | some errno => (fs, some { Op := "remove", Path := name, Err := errno })
      | none =>
        ({ fs with entries := fs.entries.filter (fun p => p ≠ name ∧ (p, name) ∉ fs.via) }, none)
    else
      (fs, some { Op := "remove", Path := name, Err := .ENOENT })

/-- The filesystem after `os.Remove` has been called on each of `names` in
turn and its errors dropped. -/
def removeEach (fs : FileSystem) : List String → FileSystem
  | [] => fs
  | name :: names => removeEach (osRemove fs name).1 names

/-- The call `os.Rename(oldpath, newpath)` where the new path may be written:
the filesystem after it and its error, which is that of an absent old path. -/
def osRename (fs : FileSystem) (oldpath newpath : String) : FileSystem × Option Error :=
  if oldpath ∈ fs.entries then
    ({ fs with
        entries := newpath :: fs.entries.filter (fun p => p ≠ oldpath ∧ p ≠ newpath) }, none)
  else
    (fs, some ("rename " ++ oldpath ++ " " ++ newpath ++ ": no such file or directory"))

/-- The arguments of one `ContainerCreate` call: the fields of
`container.Config` and `container.HostConfig` that `Start` fills in. -/
structure CreateRequest where
  Image : String
  Cmd : List String
  Tty : Bool
  User : String
  WorkingDir : String
  Entrypoint : List String
  Binds : List String
  deriving DecidableEq, Repr

/-- Everything the code asks of its surroundings: the machine, the Go
library calls that depend on the process (working directory, current user)
and the answers of the Docker daemon. -/
structure Host where
  /-- The value of `runtime.NumCPU()`. -/
  NumCPU : Int
  /-- The function `filepath.Dir`. -/
  Dir : String → String
  /-- The function `filepath.Abs`. -/
  Abs : String → Except Error String
  /-- The call `user.Current()`: the `Uid` and `Gid` of the user. -/
  userCurrent : Except Error (String × String)
  /-- The error of `client.NewEnvClient()`. -/
  NewEnvClient : Option Error
  /-- The error of `cli.ImagePull` for an image name. -/
  ImagePull : String → Option Error
  /-- The answer of `cli.ContainerCreate`: the `ID` of the created body. -/
  ContainerCreate : CreateRequest → Except Error String
  /-- The error of `cli.ContainerStart` for a container id. -/
  ContainerStart : String → Option Error
  /-- What the running container writes below its bind mounts. -/
  ContainerRun : String → FileSystem → FileSystem
  /-- The error received on the error channel of `cli.ContainerWait`, if any. -/
  ContainerWait : String → Option Error
  /-- The error of `cli.ContainerLogs` for a container id. -/
  ContainerLogs : String → Option Error

/-- A call that acts on the container runtime or changes the filesystem. -/
inductive Event where
  | ImagePull (name : String)
  | ContainerCreate (req : CreateRequest)
  | ContainerStart (id : String)
  | ContainerWait (id : String)
  | ContainerLogs (id : String)
  | Remove (name : String)
  | Rename (oldpath newpath : String)
  deriving DecidableEq, Repr

/-- How a call ends: it returns `nil`, it returns an error, or it panics. -/
inductive Result where
  | nil
  | err (e : Error)
  | panic (e : Error)
  deriving DecidableEq, Repr

/-! ## The container session of `godocker.go` -/

/-- The struct `Container` without its two handles (`ctx`, `cli`), whose
answers are those of the `Host`. -/
structure Container where
  id : Int
  indir : String
  outdir : String
  cl : List String
  name : String
  deriving DecidableEq, Repr

/-- The function `NewContainer`: the session or the error, and the calls made. -/
def NewContainer (h : Host) (name : String) : Except Error Container × List Event :=
  match h.NewEnvClient with
  | some e => (.error e, [])
  | none =>
    let c : Container := { id := -1, indir := "", outdir := "", cl := [], name := name }
    match h.ImagePull name with
    | some e => (.error e, [Event.ImagePull name])
    | none => (.ok c, [Event.ImagePull name])

def Container.SetInputDir (c : Container) (indir : String) : Container :=
  { c with indir := indir }

def Container.SetOutputDir (c : Container) (outdir : String) : Container :=
  { c with outdir := outdir }

def Container.SetCommandLine (c : Container) (cl : List String) : Container :=
  { c with cl := c.cl ++ cl }

/-- The method `Start` when no signal reaches the process: how it ends, the
filesystem after it and the calls made, in order. -/
def Container.Start (h : Host) (fs : FileSystem) (c : Container) :
    Result × FileSystem × List Event :=
  match h.userCurrent with
  | .error e => (.err e, fs, [])
  | .ok u =>
    if c.cl.length = 0 then
      (.err "Cannot start container, command line is empty", fs, [])
    else if c.indir = "" then
      (.err "Cannot start container, do not know which input directory to bind to /indir", fs, [])
    else if osIsNotExist (osStat fs c.indir) then
      (.err "Cannot start container, given indir does not exist", fs, [])
    else if c.outdir = "" then
      (.err "Cannot start container, do not know which output directory to bind to /outdir", fs, [])
    else if osIsNotExist (osStat fs c.outdir) then
      (.err "Cannot start container, given outdir does not exist", fs, [])
    else
      let binds : List String := [c.indir ++ ":/indir", c.outdir ++ ":/outdir"]
      let req : CreateRequest :=
        { Image := c.name
          Cmd := c.cl
          Tty := true
          User := u.1 ++ ":" ++ u.2
          WorkingDir := "/indir"
          Entrypoint := []
          Binds := binds }
      match h.ContainerCreate req with
      | .error e => (.err e, fs, [Event.ContainerCreate req])
      | .ok id =>
        match h.ContainerStart id with
        | some e => (.err e, fs, [Event.ContainerCreate req, Event.ContainerStart id])
        | none =>
          let fs1 := h.ContainerRun id fs
          match h.ContainerWait id with
          | some e =>
            (.panic e, fs1,
              [Event.ContainerCreate req, Event.ContainerStart id, Event.ContainerWait id])
          | none =>
            match h.ContainerLogs id with
            | some e =>
              (.panic e, fs1,
                [Event.ContainerCreate req, Event.ContainerStart id, Event.ContainerWait id,
                  Event.ContainerLogs id])
            | none =>
              (.nil, fs1,
                [Event.ContainerCreate req, Event.ContainerStart id, Event.ContainerWait id,
                  Event.ContainerLogs id])

/-! ## The tool invocation of `raxml.go`, continued -/

/-- The method `InDir`. -/
def RAxMLTool.InDir (h : Host) (fs : FileSystem) (r : RAxMLTool) : Except Error String :=
  match h.Abs (h.Dir r.inputalign) with
  | .error e => .error e
  | .ok indir =>
    match osStat fs indir with
    | some e => .error e.Error
    | none => .ok indir

def RAxMLTool.InBaseName (r : RAxMLTool) : String := filepathBase r.inputalign

/-- The method `OutDir`. -/
def RAxMLTool.OutDir (h : Host) (fs : FileSystem) (r : RAxMLTool) : Except Error String :=
  match h.Abs (h.Dir r.outputtree) with
  | .error e => .error e
  | .ok outdir =>
    match osStat fs outdir with
    | some e => .error e.Error
    | none => .ok outdir

/-- The method `CommandLine`. -/
def RAxMLTool.CommandLine (h : Host) (r : RAxMLTool) : Except Error (List String) :=
  match r.ModelString with
  | .error e => .error e
  | .ok model =>
    .ok [ "raxmlHPC",
          "-f", "d",
          "-m", model,
          "-c", Sprintf_d r.gammacat,
          "-s", r.InBaseName,
          "-n", r.RunName,
          "-T", Sprintf_d (r.Cpus h.NumCPU),
          "-p", Sprintf_d r.seed ]

/-- The five output files that RAxML leaves in `indir` for the run `name`:
best tree, info, log, parsimony tree and result. -/
def prevRunFiles (indir name : String) : List String :=
  [ indir ++ "/RAxML_bestTree." ++ name,
    indir ++ "/RAxML_info." ++ name,
    indir ++ "/RAxML_log." ++ name,
    indir ++ "/RAxML_parsimonyTree." ++ name,
    indir ++ "/RAxML_result." ++ name ]

/-- The method `RemoveIfExistsPrevRun`: its error, the filesystem after it
and the calls made, in order. -/
def RAxMLTool.RemoveIfExistsPrevRun (h : Host) (fs : FileSystem) (r : RAxMLTool) :
    Option Error × FileSystem × List Event :=
  match r.InDir h fs with
  | .error e => (some e, fs, [])
  | .ok indir =>
    if osStat fs (indir ++ "/RAxML_info." ++ r.RunName) = none then
      let f1 := indir ++ "/RAxML_bestTree." ++ r.RunName
      let f2 := indir ++ "/RAxML_info." ++ r.RunName
      let f3 := indir ++ "/RAxML_log." ++ r.RunName
      let f4 := indir ++ "/RAxML_parsimonyTree." ++ r.RunName
      let f5 := indir ++ "/RAxML_result." ++ r.RunName
      let fs1 := (osRemove fs f1).1
      let fs2 := (osRemove fs1 f2).1
      let fs3 := (osRemove fs2 f3).1
      let fs4 := (osRemove fs3 f4).1
      let fs5 := (osRemove fs4 f5).1
      (none, fs5,
        [Event.Remove f1, Event.Remove f2, Event.Remove f3, Event.Remove f4, Event.Remove f5])
    else
      (none, fs, [])

/-- The method `Execute`: how it ends, the filesystem after it and the calls
made, in order. -/
def RAxMLTool.Execute (h : Host) (fs : FileSystem) (r : RAxMLTool) :
    Result × FileSystem × List Event :=
  match r.ImageString with
  | .error e => (.err e, fs, [])
  | .ok image =>
    match NewContainer h image with
    | (.error e, t1) => (.err e, fs, t1)
    | (.ok c0, t1) =>
      match r.InDir h fs with
      | .error e => (.err e, fs, t1)
      | .ok indir =>
        match r.OutDir h fs with
        | .error e => (.err e, fs, t1)
        | .ok outdir =>
          let c1 := (c0.SetInputDir indir).SetOutputDir outdir
          match r.CommandLine h with
          | .error e => (.err e, fs, t1)
          | .ok cl =>
            let c2 := c1.SetCommandLine cl
            match (if r.Force then r.RemoveIfExistsPrevRun h fs else (none, fs, [])) with
            | (some e, fs2, t2) => (.err e, fs2, t1 ++ t2)
            | (none, fs2, t2) =>
              match c2.Start h fs2 with
              | (.err e, fs3, t3) => (.err e, fs3, t1 ++ t2 ++ t3)
              | (.panic e, fs3, t3) => (.panic e, fs3, t1 ++ t2 ++ t3)
              | (.nil, fs3, t3) =>
                let raxmloutput := indir ++ "/RAxML_bestTree.TEST"
                let fs4 := (osRename fs3 raxmloutput r.OutputTree).1
                (.nil, fs4, t1 ++ t2 ++ t3 ++ [Event.Rename raxmloutput r.OutputTree])

/-! ## Sample surroundings -/

/-- A host with `n` logical CPUs on which every call succeeds: paths are
absolute already, the daemon names each container `c1`, and a run leaves the
filesystem as it is. -/
def quietHost (n : Int) : Host :=
  { NumCPU := n
    Dir := fun p =>
      String.mk ((p.data.reverse.dropWhile (fun ch => ch ≠ '/')).drop 1).reverse
    Abs := fun p => .ok p
    userCurrent := .ok ("1000", "1000")
    NewEnvClient := none
    ImagePull := fun _ => none
    ContainerCreate := fun _ => .ok "c1"
    ContainerStart := fun _ => none
    ContainerRun := fun _ fs => fs
    ContainerWait := fun _ => none
    ContainerLogs := fun _ => none }

/-- The sample filesystem without the leftovers of the run `DOCKER`. -/
def cleanedFS : FileSystem :=
  { entries := ["/tmp/in", "/tmp/out", "/tmp/in/align.fa", "/tmp/in/notes.txt"] }

/-- The create call that `Execute` makes for the sample tool. -/
def sampleRequest : CreateRequest :=
  { Image := "docker.io/evolbioinfo/raxml:v8.2.11"
    Cmd := [ "raxmlHPC", "-f", "d", "-m", "GTRGAMMA", "-c", "4", "-s", "align.fa",
             "-n", "DOCKER", "-T", "3", "-p", "12345" ]
    Tty := true
    User := "1000:1000"
    WorkingDir := "/indir"
    Entrypoint := []
    Binds := ["/tmp/in:/indir", "/tmp/out:/outdir"] }

/-- A host like `quietHost 4` whose daemon refuses to create a container. -/
def refusingHost : Host :=
  { quietHost 4 with ContainerCreate := fun _ => .error "daemon refused" }

/-- A host like `quietHost 4` on which the run leaves a best tree and an
info file named after the run name `DOCKER` in `/tmp/in`. -/
def raxmlHost : Host :=
  { quietHost 4 with
    ContainerRun := fun _ fs =>
      { fs with
        entries := fs.entries ++ ["/tmp/in/RAxML_bestTree.DOCKER", "/tmp/in/RAxML_info.DOCKER"] } }

/-- The tool of the end-to-end scenario: defaults, `/tmp/in/align.fa` in,
`/tmp/out/tree.nwk` out. -/
def sampleTool : RAxMLTool :=
  { NewRAXMLTool with inputalign := "/tmp/in/align.fa", outputtree := "/tmp/out/tree.nwk" }

/-- A filesystem holding the two directories, the alignment and the
leftovers of a run named `DOCKER`. -/
def sampleFS : FileSystem :=
  { entries :=
      [ "/tmp/in", "/tmp/out", "/tmp/in/align.fa",
        "/tmp/in/RAxML_info.DOCKER", "/tmp/in/RAxML_bestTree.DOCKER",
        "/tmp/in/RAxML_log.DOCKER", "/tmp/in/notes.txt" ] }

/-- A filesystem in which the marker of the run `DOCKER` is a directory that
is not empty, next to a best tree and a log of that run. -/
def heldMarkerFS : FileSystem :=
  { entries :=
      [ "/tmp/in", "/tmp/in/align.fa",
        "/tmp/in/RAxML_info.DOCKER", "/tmp/in/RAxML_info.DOCKER/old.txt",
        "/tmp/in/RAxML_bestTree.DOCKER", "/tmp/in/RAxML_log.DOCKER" ]
    held := [("/tmp/in/RAxML_info.DOCKER", .ENOTEMPTY)] }

/-- A filesystem in which `/tmp/in` is also found as `/data`, through a
symbolic link, so that each leftover of the run `DOCKER` has a second path. -/
def linkedFS : FileSystem :=
  { entries :=
      [ "/tmp/in", "/data", "/tmp/in/align.fa", "/data/align.fa",
        "/tmp/in/RAxML_info.DOCKER", "/data/RAxML_info.DOCKER",
        "/tmp/in/RAxML_result.DOCKER", "/data/RAxML_result.DOCKER" ]
    via :=
      [ ("/data/align.fa", "/tmp/in/align.fa"), ("/tmp/in/align.fa", "/data/align.fa"),
        ("/data/RAxML_info.DOCKER", "/tmp/in/RAxML_info.DOCKER"),
        ("/tmp/in/RAxML_info.DOCKER", "/data/RAxML_info.DOCKER"),
        ("/data/RAxML_result.DOCKER", "/tmp/in/RAxML_result.DOCKER"),
        ("/tmp/in/RAxML_result.DOCKER", "/data/RAxML_result.DOCKER") ] }

/-! ## Lemmas on the lookup loop -/

theorem rangeFind_eq_none (name : String) (l : List String) (k : Nat) :
    rangeFind name l k = none ↔ name ∉ l := by
  induction l generalizing k with
  | nil => simp [rangeFind]
  | cons m ms ih =>
    by_cases hm : m = name
    · simp [rangeFind, hm]
    · have hne : ¬ name = m := fun h => hm h.symm
      simp [rangeFind, hm, hne, ih]

theorem rangeFind_eq_some (name : String) (l : List String) (k i : Nat)
    (h : rangeFind name l k = some i) :
    k ≤ i ∧ i - k < l.length ∧ l.getD (i - k) "" = name := by
  induction l generalizing k with
  | nil => simp [rangeFind] at h
  | cons m ms ih =>
    by_cases hm : m = name
    · simp [rangeFind, hm] at h
      subst h
      simp [hm]
    · simp [rangeFind, hm] at h
      obtain ⟨h1, h2, h3⟩ := ih (k + 1) h
      have hik : i - k = (i - (k + 1)) + 1 := by omega
      refine ⟨by omega, ?_, ?_⟩
      · simp only [List.length_cons]; omega
      · rw [hik]; simpa using h3

theorem wrapInt_of_small (x : Int) (h1 : -(2 ^ 63) ≤ x) (h2 : x < 2 ^ 63) : wrapInt x = x := by
  unfold wrapInt
  have e63 : (2 : Int) ^ 63 = 9223372036854775808 := by norm_num
  have e64 : (2 : Int) ^ 64 = 18446744073709551616 := by norm_num
  rw [e63] at h1 h2
  rw [e63, e64]
  omega

/-! ## The derived CPU count -/

/-- C1: for every configured CPU value `c`, whatever the rest of the tool,
and every detected CPU count `n` of at least one (a Go `int`), `Cpus` returns
`c` when `0 < c` and `c ≤ n`, and `max (n - 1) 1` in every other case. -/
theorem Cpus_effective (r : RAxMLTool) (c n : Int) (hn : 1 ≤ n) (hmax : n < 2 ^ 63) :
    (r.SetCpus c).Cpus n = if 0 < c ∧ c ≤ n then c else max (n - 1) 1 := by
  have hw : wrapInt (n - 1) = n - 1 := by
    apply wrapInt_of_small
    · have : (0 : Int) ≤ 2 ^ 63 := by positivity
      omega
    · omega
  simp only [RAxMLTool.Cpus, RAxMLTool.SetCpus, hw]
  by_cases hc : 0 < c ∧ c ≤ n
  · have h1 : ¬ (c ≤ 0 ∨ c > n) := by omega
    simp [hc, h1]
  · have h1 : c ≤ 0 ∨ c > n := by omega
    rw [if_pos h1, if_neg hc]
    by_cases h2 : n - 1 ≤ 0
    · rw [if_pos h2, max_eq_right (by omega)]
    · rw [if_neg h2, max_eq_left (by omega)]

/-- C1 on a host with four logical CPUs: a configured count of six is out of
range, so three are used. -/
theorem Cpus_effective_witness :
    ((1 : Int) ≤ 4 ∧ (4 : Int) < 2 ^ 63) ∧
      (NewRAXMLTool.SetCpus 6).Cpus 4 = if 0 < (6 : Int) ∧ (6 : Int) ≤ 4 then 6 else max (4 - 1) 1 :=
  ⟨by decide, Cpus_effective NewRAXMLTool 6 4 (by decide) (by decide)⟩

/-! ## Selecting the model -/

/-- C2 at the failing index: `SetModel` returns no error exactly for the
indices from 0 to 27, and so accepts the index 27, the length of the model
table, although 27 does not resolve within the table: the model name cannot
be read back afterwards. -/
theorem SetModel_table_length_accepted :
    (∀ (r : RAxMLTool) (i : Int), (r.SetModel i).2 = none ↔ (0 ≤ i ∧ i ≤ 27)) ∧
      ¬ ((27 : Int) < 0) ∧ (27 : Int) ≥ (RAxMLModels.length : Int) ∧
      (NewRAXMLTool.SetModel 27).2 = none ∧
      (NewRAXMLTool.SetModel 27).1.model = 27 ∧
      (NewRAXMLTool.SetModel 27).1.ModelString = .error "Invalid Model: 27" := by
  refine ⟨?_, by decide, by decide, by decide, by decide, by rfl⟩
  intro r i
  have hlen : (RAxMLModels.length : Int) = 27 := by decide
  simp only [RAxMLTool.SetModel, hlen]
  by_cases hi : i < 0 ∨ i > 27
  · rw [if_pos hi]
    constructor
    · intro hh; cases hh
    · intro hh; omega
  · rw [if_neg hi]
    constructor
    · intro _; omega
    · intro _; rfl

/-- C3: for every name of the model table and every tool, `SetModelString`
returns no error and `ModelString` on the resulting tool returns that name. -/
theorem SetModelString_then_ModelString (r : RAxMLTool) (s : String) (hs : s ∈ RAxMLModels) :
    (r.SetModelString s).2 = none ∧ (r.SetModelString s).1.ModelString = .ok s := by
  cases hf : rangeFind s RAxMLModels 0 with
  | none => exact absurd hs ((rangeFind_eq_none s RAxMLModels 0).1 hf)
  | some i =>
    obtain ⟨_, hlt, hget⟩ := rangeFind_eq_some s RAxMLModels 0 i hf
    simp only [Nat.sub_zero] at hlt hget
    have hlt2 : (i : Int) < (RAxMLModels.length : Int) := by exact_mod_cast hlt
    rw [List.getD_eq_getElem?_getD] at hget
    simp [RAxMLTool.SetModelString, hf, RAxMLTool.ModelString, hlt2, hget]

/-- C3 for the name `PROTGAMMAWAG`, starting from the default tool. -/
theorem SetModelString_then_ModelString_witness :
    "PROTGAMMAWAG" ∈ RAxMLModels ∧
      (NewRAXMLTool.SetModelString "PROTGAMMAWAG").2 = none ∧
      (NewRAXMLTool.SetModelString "PROTGAMMAWAG").1.ModelString = .ok "PROTGAMMAWAG" :=
  ⟨by decide, SetModelString_then_ModelString NewRAXMLTool "PROTGAMMAWAG" (by decide)⟩

/-- C4: for every string that is not in the model table and every tool,
`SetModelString` returns the error `No such model` and the tool it leaves is
the tool it was given, field for field. -/
theorem SetModelString_unknown (r : RAxMLTool) (s : String) (hs : s ∉ RAxMLModels) :
    (r.SetModelString s).2 = some ("No such model: " ++ s) ∧ (r.SetModelString s).1 = r := by
  have hf : rangeFind s RAxMLModels 0 = none := (rangeFind_eq_none s RAxMLModels 0).2 hs
  simp [RAxMLTool.SetModelString, hf]

/-- C4 for the name `JC69` on a tool whose model is `PROTGAMMAWAG`. -/
theorem SetModelString_unknown_witness :
    "JC69" ∉ RAxMLModels ∧
      ((NewRAXMLTool.SetModelString "PROTGAMMAWAG").1.SetModelString "JC69").2
        = some ("No such model: " ++ "JC69") ∧
      ((NewRAXMLTool.SetModelString "PROTGAMMAWAG").1.SetModelString "JC69").1
        = (NewRAXMLTool.SetModelString "PROTGAMMAWAG").1 :=
  ⟨by decide,
    SetModelString_unknown (NewRAXMLTool.SetModelString "PROTGAMMAWAG").1 "JC69" (by decide)⟩

/-! ## The command line -/

/-- C5: for every tool and host, when the model index resolves within the
model table `CommandLine` returns no error and the fifteen arguments
`raxmlHPC -f d -m <model name> -c <gamma categories> -s <input base name>
-n <run name> -T <Cpus()> -p <seed>`, numbers in decimal; the result depends
on the host through its CPU count only; for model `GTRGAMMA`, four gamma
categories, input base name `align.fa`, run name `DOCKER`, three effective
CPUs and seed 12345 it is the sequence of the specification; and when the
model index does not resolve it returns the error of `ModelString`. -/
theorem CommandLine_spec (h : Host) (r : RAxMLTool) :
    ((0 ≤ r.model ∧ r.model < (RAxMLModels.length : Int)) →
      r.CommandLine h = .ok
        [ "raxmlHPC", "-f", "d", "-m", RAxMLModels.getD r.model.toNat "",
          "-c", Sprintf_d r.gammacat, "-s", filepathBase r.inputalign, "-n", r.runname,
          "-T", Sprintf_d (r.Cpus h.NumCPU), "-p", Sprintf_d r.seed ] ∧
      r.ModelString = .ok (RAxMLModels.getD r.model.toNat "")) ∧
    (∀ cl, r.CommandLine h = .ok cl → cl.length = 15) ∧
    (∀ h2 : Host, h2.NumCPU = h.NumCPU → r.CommandLine h2 = r.CommandLine h) ∧
    ((r.model = RAXML_GTRGAMMA ∧ r.gammacat = 4 ∧ filepathBase r.inputalign = "align.fa" ∧
        r.runname = "DOCKER" ∧ r.Cpus h.NumCPU = 3 ∧ r.seed = 12345) →
      r.CommandLine h = .ok
        [ "raxmlHPC", "-f", "d", "-m", "GTRGAMMA", "-c", "4", "-s", "align.fa",
          "-n", "DOCKER", "-T", "3", "-p", "12345" ]) ∧
    (¬ (0 ≤ r.model ∧ r.model < (RAxMLModels.length : Int)) →
      r.ModelString = .error ("Invalid Model: " ++ Sprintf_d r.model) ∧
      r.CommandLine h = .error ("Invalid Model: " ++ Sprintf_d r.model)) := by
  refine ⟨?_, ?_, ?_, ?_, ?_⟩
  · intro hv
    have hv2 : r.model < (RAxMLModels.length : Int) ∧ r.model ≥ 0 := ⟨hv.2, hv.1⟩
    simp only [RAxMLTool.CommandLine, RAxMLTool.ModelString, if_pos hv2, RAxMLTool.InBaseName,
      RAxMLTool.RunName, and_self]
  · intro cl hcl
    unfold RAxMLTool.CommandLine at hcl
    cases hm : r.ModelString with
    | error e => simp [hm] at hcl
    | ok m =>
      simp only [hm, Except.ok.injEq] at hcl
      subst hcl
      rfl
  · intro h2 hn
    simp only [RAxMLTool.CommandLine, hn]
  · rintro ⟨hm, hg, hb, hrn, hcp, hsd⟩
    have hv2 : r.model < (RAxMLModels.length : Int) ∧ r.model ≥ 0 := by
      rw [hm]; decide
    simp only [RAxMLTool.CommandLine, RAxMLTool.ModelString, if_pos hv2, RAxMLTool.InBaseName,
      RAxMLTool.RunName, hm, hg, hb, hrn, hcp, hsd]
    rfl
  · intro hv
    have hv2 : ¬ (r.model < (RAxMLModels.length : Int) ∧ r.model ≥ 0) := fun hh => hv ⟨hh.2, hh.1⟩
    simp only [RAxMLTool.CommandLine, RAxMLTool.ModelString, if_neg hv2, and_self]

/-- C5 on a host with four logical CPUs: the default tool reading
`/tmp/in/align.fa` gets the command line of the specification, and a tool
whose model index is 27 gets the error of `ModelString`. -/
theorem CommandLine_spec_witness :
    sampleTool.CommandLine (quietHost 4) = .ok
        [ "raxmlHPC", "-f", "d", "-m", "GTRGAMMA", "-c", "4", "-s", "align.fa",
          "-n", "DOCKER", "-T", "3", "-p", "12345" ] ∧
      (sampleTool.SetModel 27).1.CommandLine (quietHost 4) = .error "Invalid Model: 27" :=
  ⟨(CommandLine_spec (quietHost 4) sampleTool).2.2.2.1
      ⟨by decide, by decide, by decide, by decide, by decide, by decide⟩,
    ((CommandLine_spec (quietHost 4) (sampleTool.SetModel 27).1).2.2.2.2 (by decide)).2⟩

/-! ## Starting a session -/

/-- C6: for every session whose command line is empty or whose input
directory is the empty string, on every host and filesystem, `Start` returns
an error, makes no call to the container runtime (no create, start, wait or
logs) and leaves the filesystem as it was. -/
theorem Start_unconfigured (h : Host) (fs : FileSystem) (c : Container)
    (hc : c.cl = [] ∨ c.indir = "") :
    ∃ e, c.Start h fs = (.err e, fs, []) := by
  unfold Container.Start
  cases hu : h.userCurrent with
  | error e => exact ⟨e, rfl⟩
  | ok u =>
    by_cases hcl : c.cl.length = 0
    · exact ⟨"Cannot start container, command line is empty", by simp only [if_pos hcl]⟩
    · have hin : c.indir = "" := by
        rcases hc with hc | hc
        · exact absurd (by rw [hc]; rfl) hcl
        · exact hc
      exact ⟨"Cannot start container, do not know which input directory to bind to /indir",
        by simp only [if_neg hcl, if_pos hin]⟩

/-- C6 for a session that holds a command line but no input directory. -/
theorem Start_unconfigured_witness :
    let c : Container := { id := -1, indir := "", outdir := "/tmp/out", cl := ["raxmlHPC"], name := "img" }
    (c.cl = [] ∨ c.indir = "") ∧ ∃ e, c.Start (quietHost 4) sampleFS = (.err e, sampleFS, []) :=
  ⟨Or.inr rfl,
    Start_unconfigured (quietHost 4) sampleFS
      { id := -1, indir := "", outdir := "/tmp/out", cl := ["raxmlHPC"], name := "img" }
      (Or.inr rfl)⟩

/-! ## Cleaning up after a previous run -/

theorem osRemove_fields (fs : FileSystem) (name : String) :
    (osRemove fs name).1.barred = fs.barred ∧ (osRemove fs name).1.held = fs.held ∧
      (osRemove fs name).1.via = fs.via := by
  unfold osRemove
  cases fs.barred.lookup name with
  | some e => exact ⟨rfl, rfl, rfl⟩
  | none =>
    by_cases hm : name ∈ fs.entries
    · cases fs.held.lookup name with
      | some e => simp only [if_pos hm, and_self]
      | none => simp only [if_pos hm, and_self]
    · simp only [if_neg hm, and_self]

theorem osRemove_removable (fs : FileSystem) (name f : String) :
    (osRemove fs name).1.removable f = fs.removable f := by
  obtain ⟨hb, hh, _⟩ := osRemove_fields fs name
  simp only [FileSystem.removable, hb, hh]

theorem osRemove_subset (fs : FileSystem) (name p : String)
    (hp : p ∈ (osRemove fs name).1.entries) : p ∈ fs.entries := by
  unfold osRemove at hp
  cases hb : fs.barred.lookup name with
  | some e => simpa only [hb] using hp
  | none =>
    by_cases hm : name ∈ fs.entries
    · cases hh : fs.held.lookup name with
      | some e => simpa only [hb, if_pos hm, hh] using hp
      | none =>
        simp only [hb, if_pos hm, hh] at hp
        exact (List.mem_filter.1 hp).1
    · simpa only [hb, if_neg hm] using hp

theorem osRemove_frame (fs : FileSystem) (name p : String) (hp : p ∈ fs.entries)
    (hgone : p ∉ (osRemove fs name).1.entries) :
    fs.removable name = true ∧ (p = name ∨ (p, name) ∈ fs.via) := by
  unfold osRemove at hgone
  cases hb : fs.barred.lookup name with
  | some e => exact absurd hp (by simpa only [hb] using hgone)
  | none =>
    by_cases hm : name ∈ fs.entries
    · cases hh : fs.held.lookup name with
      | some e => exact absurd hp (by simpa only [hb, if_pos hm, hh] using hgone)
      | none =>
        simp only [hb, if_pos hm, hh] at hgone
        refine ⟨by simp [FileSystem.removable, hb, hh], ?_⟩
        by_contra hcon
        apply hgone
        rw [List.mem_filter]
        refine ⟨hp, ?_⟩
        have h1 : p ≠ name := fun hh2 => hcon (Or.inl hh2)
        have h2 : (p, name) ∉ fs.via := fun hh2 => hcon (Or.inr hh2)
        simp [h1, h2]
    · exact absurd hp (by simpa only [hb, if_neg hm] using hgone)

theorem osRemove_gone (fs : FileSystem) (name : String) (hr : fs.removable name = true) :
    name ∉ (osRemove fs name).1.entries := by
  simp only [FileSystem.removable, Bool.and_eq_true, Option.isNone_iff_eq_none] at hr
  unfold osRemove
  by_cases hm : name ∈ fs.entries
  · simp only [hr.1, if_pos hm, hr.2]
    intro hmem
    have := (List.mem_filter.1 hmem).2
    simp at this
  · simpa only [hr.1, if_neg hm] using hm

theorem osRemove_plain (fs : FileSystem) (name : String) (hr : fs.removable name = true)
    (hv : ∀ p ∈ fs.entries, (p, name) ∉ fs.via) :
    (osRemove fs name).1.entries = fs.entries.filter (fun p => decide (p ≠ name)) := by
  simp only [FileSystem.removable, Bool.and_eq_true, Option.isNone_iff_eq_none] at hr
  unfold osRemove
  by_cases hm : name ∈ fs.entries
  · simp only [hr.1, if_pos hm, hr.2]
    apply List.filter_congr
    intro p hp
    have := hv p hp
    simp [this]
  · simp only [hr.1, if_neg hm]
    symm
    rw [List.filter_eq_self]
    intro a ha
    have : a ≠ name := fun hh => hm (hh ▸ ha)
    simpa using this

theorem removeEach_removable (fs : FileSystem) (names : List String) (f : String) :
    (removeEach fs names).removable f = fs.removable f := by
  induction names generalizing fs with
  | nil => rfl
  | cons n ns ih => rw [removeEach, ih, osRemove_removable]

theorem removeEach_via (fs : FileSystem) (names : List String) :
    (removeEach fs names).via = fs.via := by
  induction names generalizing fs with
  | nil => rfl
  | cons n ns ih => rw [removeEach, ih, (osRemove_fields fs n).2.2]

theorem removeEach_subset (fs : FileSystem) (names : List String) (p : String)
    (hp : p ∈ (removeEach fs names).entries) : p ∈ fs.entries := by
  induction names generalizing fs with
  | nil => exact hp
  | cons n ns ih => exact osRemove_subset fs n p (ih _ hp)

theorem removeEach_frame (fs : FileSystem) (names : List String) (p : String)
    (hp : p ∈ fs.entries) (hgone : p ∉ (removeEach fs names).entries) :
    ∃ f ∈ names, fs.removable f = true ∧ (p = f ∨ (p, f) ∈ fs.via) := by
  induction names generalizing fs with
  | nil => exact absurd hp hgone
  | cons n ns ih =>
    by_cases h1 : p ∈ (osRemove fs n).1.entries
    · obtain ⟨f, hf, hr, hpf⟩ := ih _ h1 hgone
      rw [osRemove_removable] at hr
      rw [(osRemove_fields fs n).2.2] at hpf
      exact ⟨f, List.mem_cons_of_mem _ hf, hr, hpf⟩
    · obtain ⟨hr, hpf⟩ := osRemove_frame fs n p hp h1
      exact ⟨n, List.mem_cons_self _ _, hr, hpf⟩

theorem removeEach_gone (fs : FileSystem) (names : List String) (f : String)
    (hf : f ∈ names) (hr : fs.removable f = true) : f ∉ (removeEach fs names).entries := by
  induction names generalizing fs with
  | nil => cases hf
  | cons n ns ih =>
    rcases List.mem_cons.1 hf with hfn | hfn
    · subst hfn
      intro hmem
      exact osRemove_gone fs f hr (removeEach_subset _ ns f hmem)
    · exact ih _ hfn (by rw [osRemove_removable]; exact hr)

theorem removeEach_plain (fs : FileSystem) (names : List String)
    (hr : ∀ f ∈ names, fs.removable f = true)
    (hv : ∀ p ∈ fs.entries, ∀ f ∈ names, (p, f) ∉ fs.via) :
    (removeEach fs names).entries = fs.entries.filter (fun p => decide (p ∉ names)) := by
  induction names generalizing fs with
  | nil => simp [removeEach]
  | cons n ns ih =>
    have hn := osRemove_plain fs n (hr n (List.mem_cons_self _ _))
      (fun p hp => hv p hp n (List.mem_cons_self _ _))
    rw [removeEach, ih]
    · rw [hn, List.filter_filter]
      apply List.filter_congr
      intro p _
      by_cases h1 : p = n <;> by_cases h2 : p ∈ ns <;> simp [h1, h2]
    · intro f hf
      rw [osRemove_removable]
      exact hr f (List.mem_cons_of_mem _ hf)
    · intro p hp f hf
      rw [(osRemove_fields fs n).2.2]
      exact hv p (osRemove_subset fs n p hp) f (List.mem_cons_of_mem _ hf)

/-- C7 as the specification states it, refuted: the marker of the run
`DOCKER` exists and `os.Stat` finds it, but it is a directory that is not
empty, so `os.Remove` fails on it; `RemoveIfExistsPrevRun` drops that error,
returns none, and the marker is still there, so what is left is not the
former filesystem without the five files. -/
theorem RemoveIfExistsPrevRun_held_marker_stays :
    sampleTool.InDir (quietHost 4) heldMarkerFS = .ok "/tmp/in" ∧
    "/tmp/in" ++ "/RAxML_info." ++ sampleTool.runname ∈ heldMarkerFS.entries ∧
    osStat heldMarkerFS ("/tmp/in" ++ "/RAxML_info." ++ sampleTool.runname) = none ∧
    (sampleTool.RemoveIfExistsPrevRun (quietHost 4) heldMarkerFS).1 = none ∧
    (sampleTool.RemoveIfExistsPrevRun (quietHost 4) heldMarkerFS).2.1.entries
      = ["/tmp/in", "/tmp/in/align.fa", "/tmp/in/RAxML_info.DOCKER",
          "/tmp/in/RAxML_info.DOCKER/old.txt"] ∧
    ¬ (∀ p, p ∈ (sampleTool.RemoveIfExistsPrevRun (quietHost 4) heldMarkerFS).2.1.entries ↔
        (p ∈ heldMarkerFS.entries ∧ p ∉ prevRunFiles "/tmp/in" sampleTool.runname)) := by
  refine ⟨by rfl, by decide, by decide, by decide, by decide, ?_⟩
  intro hall
  exact ((hall "/tmp/in/RAxML_info.DOCKER").1 (by decide)).2 (by decide)

/-- C7, amended: for every tool whose input bind directory resolves to
`indir` and every filesystem on which `os.Stat` finds the marker
`indir/RAxML_info.<runname>`, `RemoveIfExistsPrevRun` returns no error and
its only calls are `os.Remove` on the five files `RAxML_bestTree`,
`RAxML_info`, `RAxML_log`, `RAxML_parsimonyTree` and `RAxML_result` of that
run name in `indir`, in this order, with their errors dropped.  Afterwards
nothing is found that was not found before; each of the five that
`os.Remove` is free to unlink is gone; and whatever else is gone is found
through one of the five that was unlinked, so that one of the five on which
`os.Remove` fails, and every path that is not found through the five, is
left in place.  Where `os.Remove` is free to unlink all five and no entry is
found through them, what is left is exactly the former entries other than
the five, in their former order. -/
theorem RemoveIfExistsPrevRun_marker_present (h : Host) (fs : FileSystem) (r : RAxMLTool)
    (indir : String) (hin : r.InDir h fs = .ok indir)
    (hm : osStat fs (indir ++ "/RAxML_info." ++ r.runname) = none) :
    (r.RemoveIfExistsPrevRun h fs).1 = none ∧
    (r.RemoveIfExistsPrevRun h fs).2.2 = (prevRunFiles indir r.runname).map Event.Remove ∧
    (r.RemoveIfExistsPrevRun h fs).2.1 = removeEach fs (prevRunFiles indir r.runname) ∧
    (∀ p, p ∈ (r.RemoveIfExistsPrevRun h fs).2.1.entries → p ∈ fs.entries) ∧
    (∀ f ∈ prevRunFiles indir r.runname, fs.removable f = true →
      f ∉ (r.RemoveIfExistsPrevRun h fs).2.1.entries) ∧
    (∀ p, p ∈ fs.entries → p ∉ (r.RemoveIfExistsPrevRun h fs).2.1.entries →
      ∃ f ∈ prevRunFiles indir r.runname,
        fs.removable f = true ∧ (p = f ∨ (p, f) ∈ fs.via)) ∧
    (∀ f ∈ prevRunFiles indir r.runname, f ∈ fs.entries → fs.removable f = false →
      (∀ g ∈ prevRunFiles indir r.runname, (f, g) ∉ fs.via) →
      f ∈ (r.RemoveIfExistsPrevRun h fs).2.1.entries) ∧
    ((∀ f ∈ prevRunFiles indir r.runname, fs.removable f = true) →
      (∀ p ∈ fs.entries, ∀ f ∈ prevRunFiles indir r.runname, (p, f) ∉ fs.via) →
      (r.RemoveIfExistsPrevRun h fs).2.1.entries
        = fs.entries.filter (fun p => decide (p ∉ prevRunFiles indir r.runname))) := by
  have hout : r.RemoveIfExistsPrevRun h fs
      = (none, removeEach fs (prevRunFiles indir r.runname),
          (prevRunFiles indir r.runname).map Event.Remove) := by
    simp only [RAxMLTool.RemoveIfExistsPrevRun, hin, RAxMLTool.RunName, hm, if_true]
    rfl
  rw [hout]
  refine ⟨rfl, rfl, rfl, ?_, ?_, ?_, ?_, ?_⟩
  · intro p hp
    exact removeEach_subset fs _ p hp
  · intro f hf hr
    exact removeEach_gone fs _ f hf hr
  · intro p hp hgone
    exact removeEach_frame fs _ p hp hgone
  · intro f _ hfe hr hnv
    by_contra hgone
    obtain ⟨g, hg, hgr, hfg⟩ := removeEach_frame fs _ f hfe hgone
    rcases hfg with hfg | hfg
    · subst hfg
      rw [hr] at hgr
      cases hgr
    · exact hnv g hg hfg
  · intro hr hv
    exact removeEach_plain fs _ hr hv

/-- C7, amended, on three filesystems.  On the sample filesystem, which holds
the marker and two more files of the run `DOCKER`, all free to be unlinked,
the three go and the two directories, the alignment and `notes.txt` stay.
On the filesystem whose marker is a directory that is not empty, the marker
stays although it is one of the five.  On the filesystem in which `/tmp/in`
is also found as `/data`, the second path of the marker goes with the marker
and both paths of the alignment stay. -/
theorem RemoveIfExistsPrevRun_marker_present_witness :
    (sampleTool.InDir (quietHost 4) sampleFS = .ok "/tmp/in" ∧
      osStat sampleFS ("/tmp/in" ++ "/RAxML_info." ++ sampleTool.runname) = none ∧
      (sampleTool.RemoveIfExistsPrevRun (quietHost 4) sampleFS).1 = none ∧
      (sampleTool.RemoveIfExistsPrevRun (quietHost 4) sampleFS).2.1.entries
        = sampleFS.entries.filter
            (fun p => decide (p ∉ prevRunFiles "/tmp/in" sampleTool.runname)) ∧
      (sampleTool.RemoveIfExistsPrevRun (quietHost 4) sampleFS).2.1.entries
        = ["/tmp/in", "/tmp/out", "/tmp/in/align.fa", "/tmp/in/notes.txt"]) ∧
    (sampleTool.InDir (quietHost 4) heldMarkerFS = .ok "/tmp/in" ∧
      osStat heldMarkerFS ("/tmp/in" ++ "/RAxML_info." ++ sampleTool.runname) = none ∧
      "/tmp/in/RAxML_info.DOCKER" ∈
        (sampleTool.RemoveIfExistsPrevRun (quietHost 4) heldMarkerFS).2.1.entries ∧
      "/tmp/in/RAxML_bestTree.DOCKER" ∉
        (sampleTool.RemoveIfExistsPrevRun (quietHost 4) heldMarkerFS).2.1.entries) ∧
    (sampleTool.InDir (quietHost 4) linkedFS = .ok "/tmp/in" ∧
      osStat linkedFS ("/tmp/in" ++ "/RAxML_info." ++ sampleTool.runname) = none ∧
      (sampleTool.RemoveIfExistsPrevRun (quietHost 4) linkedFS).2.1.entries
        = ["/tmp/in", "/data", "/tmp/in/align.fa", "/data/align.fa"] ∧
      "/data/RAxML_info.DOCKER" ∉ prevRunFiles "/tmp/in" sampleTool.runname ∧
      ∃ f ∈ prevRunFiles "/tmp/in" sampleTool.runname,
        linkedFS.removable f = true ∧
          ("/data/RAxML_info.DOCKER" = f ∨ ("/data/RAxML_info.DOCKER", f) ∈ linkedFS.via)) :=
  ⟨⟨by rfl, by decide,
      (RemoveIfExistsPrevRun_marker_present (quietHost 4) sampleFS sampleTool "/tmp/in"
        (by rfl) (by decide)).1,
      (RemoveIfExistsPrevRun_marker_present (quietHost 4) sampleFS sampleTool "/tmp/in"
        (by rfl) (by decide)).2.2.2.2.2.2.2 (by decide) (by decide),
      by decide⟩,
    ⟨by rfl, by decide,
      (RemoveIfExistsPrevRun_marker_present (quietHost 4) heldMarkerFS sampleTool "/tmp/in"
        (by rfl) (by decide)).2.2.2.2.2.2.1 "/tmp/in/RAxML_info.DOCKER"
        (by decide) (by decide) (by decide) (by decide),
      (RemoveIfExistsPrevRun_marker_present (quietHost 4) heldMarkerFS sampleTool "/tmp/in"
        (by rfl) (by decide)).2.2.2.2.1 "/tmp/in/RAxML_bestTree.DOCKER"
        (by decide) (by decide)⟩,
    ⟨by rfl, by decide, by decide, by decide,
      (RemoveIfExistsPrevRun_marker_present (quietHost 4) linkedFS sampleTool "/tmp/in"
        (by rfl) (by decide)).2.2.2.2.2.1 "/data/RAxML_info.DOCKER" (by decide) (by decide)⟩⟩

/-- C8: for every tool whose input bind directory resolves to `indir` and
every filesystem that does not hold the marker `indir/RAxML_info.<runname>`,
`RemoveIfExistsPrevRun` returns no error, calls `os.Remove` not once and
leaves the filesystem as it was. -/
theorem RemoveIfExistsPrevRun_marker_absent (h : Host) (fs : FileSystem) (r : RAxMLTool)
    (indir : String) (hin : r.InDir h fs = .ok indir)
    (hm : indir ++ "/RAxML_info." ++ r.runname ∉ fs.entries) :
    r.RemoveIfExistsPrevRun h fs = (none, fs, []) := by
  have hst : ¬ (osStat fs (indir ++ "/RAxML_info." ++ r.runname) = none) := by
    unfold osStat
    cases fs.barred.lookup (indir ++ "/RAxML_info." ++ r.runname) with
    | some e => simp
    | none => simp [if_neg hm]
  simp only [RAxMLTool.RemoveIfExistsPrevRun, hin, RAxMLTool.RunName, if_neg hst]

/-- C8 on the sample filesystem for the run name `OTHER`, which has no
marker there: the leftovers of the run `DOCKER` are not touched. -/
theorem RemoveIfExistsPrevRun_marker_absent_witness :
    (sampleTool.SetRunName "OTHER").InDir (quietHost 4) sampleFS = .ok "/tmp/in" ∧
      "/tmp/in" ++ "/RAxML_info." ++ (sampleTool.SetRunName "OTHER").runname ∉ sampleFS.entries ∧
      (sampleTool.SetRunName "OTHER").RemoveIfExistsPrevRun (quietHost 4) sampleFS
        = (none, sampleFS, []) :=
  ⟨by rfl, by decide,
    RemoveIfExistsPrevRun_marker_absent (quietHost 4) sampleFS (sampleTool.SetRunName "OTHER")
      "/tmp/in" (by rfl) (by decide)⟩

/-! ## The whole invocation -/

theorem NewContainer_events (h : Host) (name : String) :
    ((NewContainer h name).2 = [] ∨ (NewContainer h name).2 = [Event.ImagePull name]) ∧
      ∀ c, (NewContainer h name).1 = .ok c → (NewContainer h name).2 = [Event.ImagePull name] := by
  unfold NewContainer
  cases h.NewEnvClient with
  | some e => simp
  | none =>
    cases h.ImagePull name with
    | some e => simp
    | none => simp

theorem RemoveIfExistsPrevRun_events (h : Host) (fs : FileSystem) (r : RAxMLTool) :
    ∀ ev ∈ (r.RemoveIfExistsPrevRun h fs).2.2, ∃ p, ev = Event.Remove p := by
  unfold RAxMLTool.RemoveIfExistsPrevRun
  cases r.InDir h fs with
  | error e => simp
  | ok indir =>
    by_cases hst : osStat fs (indir ++ "/RAxML_info." ++ r.RunName) = none
    · simp [hst]
    · simp [hst]

theorem Start_events (h : Host) (fs : FileSystem) (c : Container) :
    ∀ ev ∈ (c.Start h fs).2.2, ∀ a b, ev ≠ Event.Rename a b := by
  unfold Container.Start
  cases h.userCurrent with
  | error e => simp
  | ok u =>
    simp only
    split_ifs
    · simp
    · simp
    · simp
    · simp
    · simp
    · split
      · simp
      · split
        · simp
        · split
          · simp
          · split <;> simp

/-- The input directory does not depend on the run name. -/
theorem InDir_SetRunName (h : Host) (fs : FileSystem) (r : RAxMLTool) (name : String) :
    (r.SetRunName name).InDir h fs = r.InDir h fs := rfl

/-- What `Execute` does once the first five stages and the cleanup have
succeeded, by the way `Start` ends. -/
theorem Execute_of_stages (h : Host) (fs : FileSystem) (r : RAxMLTool)
    (image : String) (c0 : Container) (t1 : List Event) (indir outdir : String)
    (cl : List String) (fs2 : FileSystem) (t2 : List Event)
    (res : Result) (fs3 : FileSystem) (t3 : List Event)
    (hI : r.ImageString = .ok image) (hN : NewContainer h image = (.ok c0, t1))
    (hin : r.InDir h fs = .ok indir) (hout : r.OutDir h fs = .ok outdir)
    (hcl : r.CommandLine h = .ok cl)
    (hrm : (if r.Force then r.RemoveIfExistsPrevRun h fs else (none, fs, [])) = (none, fs2, t2))
    (hst : (((c0.SetInputDir indir).SetOutputDir outdir).SetCommandLine cl).Start h fs2
      = (res, fs3, t3)) :
    (res ≠ .nil → r.Execute h fs = (res, fs3, t1 ++ t2 ++ t3)) ∧
    (res = .nil → r.Execute h fs =
      (.nil, (osRename fs3 (indir ++ "/RAxML_bestTree.TEST") r.outputtree).1,
        t1 ++ t2 ++ t3 ++ [Event.Rename (indir ++ "/RAxML_bestTree.TEST") r.outputtree])) := by
  simp only [RAxMLTool.Execute, hI, hN, hin, hout, hcl, hrm, hst, RAxMLTool.OutputTree]
  cases res <;> simp

/-- Within `Execute` the cleanup does not fail: it derives the input
directory that has just been derived from the same filesystem. -/
theorem cleanup_of_InDir (h : Host) (fs : FileSystem) (r : RAxMLTool) (indir : String)
    (hin : r.InDir h fs = .ok indir) :
    ∃ fs2 t2, (if r.Force then r.RemoveIfExistsPrevRun h fs else (none, fs, [])) = (none, fs2, t2) ∧
      (r.force = false → fs2 = fs ∧ t2 = []) ∧ (∀ ev ∈ t2, ∃ p, ev = Event.Remove p) := by
  by_cases hf : r.Force = true
  · have h1 : (r.RemoveIfExistsPrevRun h fs).1 = none := by
      unfold RAxMLTool.RemoveIfExistsPrevRun
      simp only [hin]
      split_ifs <;> rfl
    refine ⟨(r.RemoveIfExistsPrevRun h fs).2.1, (r.RemoveIfExistsPrevRun h fs).2.2, ?_, ?_, ?_⟩
    · rw [if_pos hf, ← h1]
    · intro hff
      simp [RAxMLTool.Force, hff] at hf
    · exact RemoveIfExistsPrevRun_events h fs r
  · refine ⟨fs, [], ?_, ?_, ?_⟩
    · rw [if_neg hf]
    · intro _; exact ⟨rfl, rfl⟩
    · simp

/-- C9: `Execute` runs its stages in the order resolve image name, create
session (pull), derive input directory, derive output directory, derive
command line, cleanup (only when the force flag is set), start session,
relocate artifact.  On every host and filesystem, when a stage up to and
including the start is the first not to succeed, `Execute` ends the way that
stage ended, with its error, and the calls made are exactly those of the
stages before it and of the stage itself: nothing at all when the image index
is outside the image table, at most the image pull when a stage before the
cleanup fails, and never a rename.  Within `Execute` the cleanup has no error
of its own to return, and without the force flag it removes nothing.  When
every stage succeeds the calls made are the pull, the removals, the calls of
the start and the rename, in this order. -/
theorem Execute_first_error (h : Host) (fs : FileSystem) (r : RAxMLTool) :
    (∀ e, r.ImageString = .error e → r.Execute h fs = (.err e, fs, [])) ∧
    (¬ (0 ≤ r.image ∧ r.image < (RAxMLImages.length : Int)) →
      r.Execute h fs = (.err ("Invalid image:  " ++ Sprintf_d r.image), fs, [])) ∧
    (∀ image e t1, r.ImageString = .ok image → NewContainer h image = (.error e, t1) →
      r.Execute h fs = (.err e, fs, t1) ∧ (t1 = [] ∨ t1 = [Event.ImagePull image])) ∧
    (∀ image c0 t1 e, r.ImageString = .ok image → NewContainer h image = (.ok c0, t1) →
      r.InDir h fs = .error e → r.Execute h fs = (.err e, fs, [Event.ImagePull image])) ∧
    (∀ image c0 t1 indir e, r.ImageString = .ok image → NewContainer h image = (.ok c0, t1) →
      r.InDir h fs = .ok indir → r.OutDir h fs = .error e →
      r.Execute h fs = (.err e, fs, [Event.ImagePull image])) ∧
    (∀ image c0 t1 indir outdir e, r.ImageString = .ok image →
      NewContainer h image = (.ok c0, t1) →
      r.InDir h fs = .ok indir → r.OutDir h fs = .ok outdir → r.CommandLine h = .error e →
      r.Execute h fs = (.err e, fs, [Event.ImagePull image])) ∧
    (∀ image c0 t1 indir outdir cl, r.ImageString = .ok image →
      NewContainer h image = (.ok c0, t1) →
      r.InDir h fs = .ok indir → r.OutDir h fs = .ok outdir → r.CommandLine h = .ok cl →
      ∃ fs2 t2,
        (if r.Force then r.RemoveIfExistsPrevRun h fs else (none, fs, [])) = (none, fs2, t2) ∧
        (r.force = false → fs2 = fs ∧ t2 = []) ∧
        (∀ ev ∈ t2, ∃ p, ev = Event.Remove p) ∧
        ∀ res fs3 t3,
          (((c0.SetInputDir indir).SetOutputDir outdir).SetCommandLine cl).Start h fs2
            = (res, fs3, t3) →
          (res ≠ .nil →
            r.Execute h fs = (res, fs3, [Event.ImagePull image] ++ t2 ++ t3) ∧
            ∀ a b, Event.Rename a b ∉ [Event.ImagePull image] ++ t2 ++ t3) ∧
          (res = .nil →
            r.Execute h fs =
              (.nil, (osRename fs3 (indir ++ "/RAxML_bestTree.TEST") r.outputtree).1,
                [Event.ImagePull image] ++ t2 ++ t3 ++
                  [Event.Rename (indir ++ "/RAxML_bestTree.TEST") r.outputtree]))) := by
  refine ⟨?_, ?_, ?_, ?_, ?_, ?_, ?_⟩
  · intro e hI
    simp only [RAxMLTool.Execute, hI]
  · intro hv
    have hv2 : ¬ (r.image < (RAxMLImages.length : Int) ∧ r.image ≥ 0) := fun hh => hv ⟨hh.2, hh.1⟩
    have hI : r.ImageString = .error ("Invalid image:  " ++ Sprintf_d r.image) := by
      simp only [RAxMLTool.ImageString, if_neg hv2]
    simp only [RAxMLTool.Execute, hI]
  · intro image e t1 hI hN
    refine ⟨by simp only [RAxMLTool.Execute, hI, hN], ?_⟩
    have := (NewContainer_events h image).1
    rw [hN] at this
    exact this
  · intro image c0 t1 e hI hN hin
    have ht := (NewContainer_events h image).2 c0 (by rw [hN])
    rw [hN] at ht
    simp only at ht
    subst ht
    simp only [RAxMLTool.Execute, hI, hN, hin]
  · intro image c0 t1 indir e hI hN hin hout
    have ht := (NewContainer_events h image).2 c0 (by rw [hN])
    rw [hN] at ht
    simp only at ht
    subst ht
    simp only [RAxMLTool.Execute, hI, hN, hin, hout]
  · intro image c0 t1 indir outdir e hI hN hin hout hcl
    have ht := (NewContainer_events h image).2 c0 (by rw [hN])
    rw [hN] at ht
    simp only at ht
    subst ht
    simp only [RAxMLTool.Execute, hI, hN, hin, hout, hcl]
  · intro image c0 t1 indir outdir cl hI hN hin hout hcl
    have ht := (NewContainer_events h image).2 c0 (by rw [hN])
    rw [hN] at ht
    simp only at ht
    subst ht
    obtain ⟨fs2, t2, hrm, hnf, hev⟩ := cleanup_of_InDir h fs r indir hin
    refine ⟨fs2, t2, hrm, hnf, hev, ?_⟩
    intro res fs3 t3 hst
    have hE := Execute_of_stages h fs r image c0 _ indir outdir cl fs2 t2 res fs3 t3
      hI hN hin hout hcl hrm hst
    refine ⟨fun hne => ⟨hE.1 hne, ?_⟩, hE.2⟩
    intro a b hmem
    simp only [List.mem_append, List.mem_singleton] at hmem
    rcases hmem with (hmem | hmem) | hmem
    · cases hmem
    · obtain ⟨p, hp⟩ := hev _ hmem
      cases hp
    · have := Start_events h fs2 _ (Event.Rename a b) (by rw [hst]; exact hmem) a b
      exact this rfl

/-- C9 on two runs: an image index outside the table ends `Execute` before
any call is made; and a daemon that refuses to create the container ends it,
with the force flag set, after the pull, the five removals and the create
call, without a rename. -/
theorem Execute_first_error_witness :
    (sampleTool.SetImage 1).1.Execute (quietHost 4) sampleFS
        = (.err "Invalid image:  1", sampleFS, []) ∧
    (sampleTool.SetForce true).Execute refusingHost sampleFS
        = (.err "daemon refused", cleanedFS,
            [ Event.ImagePull "docker.io/evolbioinfo/raxml:v8.2.11",
              Event.Remove "/tmp/in/RAxML_bestTree.DOCKER",
              Event.Remove "/tmp/in/RAxML_info.DOCKER",
              Event.Remove "/tmp/in/RAxML_log.DOCKER",
              Event.Remove "/tmp/in/RAxML_parsimonyTree.DOCKER",
              Event.Remove "/tmp/in/RAxML_result.DOCKER",
              Event.ContainerCreate sampleRequest ]) := by
  refine ⟨(Execute_first_error (quietHost 4) sampleFS (sampleTool.SetImage 1).1).2.1
    (by decide), ?_⟩
  obtain ⟨fs2, t2, hrm, -, -, hS⟩ :=
    (Execute_first_error refusingHost sampleFS (sampleTool.SetForce true)).2.2.2.2.2.2
      "docker.io/evolbioinfo/raxml:v8.2.11"
      { id := -1, indir := "", outdir := "", cl := [],
        name := "docker.io/evolbioinfo/raxml:v8.2.11" }
      [Event.ImagePull "docker.io/evolbioinfo/raxml:v8.2.11"]
      "/tmp/in" "/tmp/out"
      [ "raxmlHPC", "-f", "d", "-m", "GTRGAMMA", "-c", "4", "-s", "align.fa",
        "-n", "DOCKER", "-T", "3", "-p", "12345" ]
      (by rfl) (by rfl) (by rfl) (by rfl) (by rfl)
  have hrm2 : ((none : Option Error), cleanedFS,
      [ Event.Remove "/tmp/in/RAxML_bestTree.DOCKER",
        Event.Remove "/tmp/in/RAxML_info.DOCKER",
        Event.Remove "/tmp/in/RAxML_log.DOCKER",
        Event.Remove "/tmp/in/RAxML_parsimonyTree.DOCKER",
        Event.Remove "/tmp/in/RAxML_result.DOCKER" ]) = (none, fs2, t2) := hrm
  simp only [Prod.mk.injEq, true_and] at hrm2
  obtain ⟨rfl, rfl⟩ := hrm2
  exact ((hS (.err "daemon refused") cleanedFS [Event.ContainerCreate sampleRequest]
    (by rfl)).1 (by decide)).1

/-- C10: on every host and filesystem, when every stage of `Execute` through
the start of the session has succeeded, `Execute` calls `os.Rename` from
`<indir>/RAxML_bestTree.TEST`, a name in which the configured run name does
not occur and which is the same for every run name, to the configured output
tree path, as its last call, and returns no error both when the rename
succeeds and when it fails for want of the source file; in the latter case
the filesystem stays as the session left it. -/
theorem Execute_rename_unchecked (h : Host) (fs : FileSystem) (r : RAxMLTool)
    (image : String) (c0 : Container) (t1 : List Event) (indir outdir : String)
    (cl : List String) (fs2 : FileSystem) (t2 : List Event) (fs3 : FileSystem) (t3 : List Event)
    (hI : r.ImageString = .ok image) (hN : NewContainer h image = (.ok c0, t1))
    (hin : r.InDir h fs = .ok indir) (hout : r.OutDir h fs = .ok outdir)
    (hcl : r.CommandLine h = .ok cl)
    (hrm : (if r.Force then r.RemoveIfExistsPrevRun h fs else (none, fs, [])) = (none, fs2, t2))
    (hst : (((c0.SetInputDir indir).SetOutputDir outdir).SetCommandLine cl).Start h fs2
      = (.nil, fs3, t3)) :
    (r.Execute h fs).1 = .nil ∧
    (r.Execute h fs).2.2 =
      t1 ++ t2 ++ t3 ++ [Event.Rename (indir ++ "/RAxML_bestTree.TEST") r.outputtree] ∧
    (r.Execute h fs).2.1 = (osRename fs3 (indir ++ "/RAxML_bestTree.TEST") r.outputtree).1 ∧
    (∀ name, (r.SetRunName name).InDir h fs = .ok indir) ∧
    (indir ++ "/RAxML_bestTree.TEST" ∈ fs3.entries →
      (osRename fs3 (indir ++ "/RAxML_bestTree.TEST") r.outputtree).2 = none ∧
      r.outputtree ∈ (r.Execute h fs).2.1.entries) ∧
    (indir ++ "/RAxML_bestTree.TEST" ∉ fs3.entries →
      (osRename fs3 (indir ++ "/RAxML_bestTree.TEST") r.outputtree).2 ≠ none ∧
      (r.Execute h fs).2.1 = fs3) := by
  have hE := (Execute_of_stages h fs r image c0 t1 indir outdir cl fs2 t2 .nil fs3 t3
      hI hN hin hout hcl hrm hst).2 rfl
  rw [hE]
  refine ⟨rfl, rfl, rfl, ?_, ?_, ?_⟩
  · intro name
    rw [InDir_SetRunName]
    exact hin
  · intro hmem
    simp [osRename, hmem]
  · intro hmem
    simp [osRename, hmem]

/-- C10 on a host where the run names its best tree after the run name
`DOCKER`: the rename from `RAxML_bestTree.TEST` finds no source, `Execute`
returns no error all the same and no output tree appears. -/
theorem Execute_rename_unchecked_witness :
    (sampleTool.Execute raxmlHost sampleFS).1 = .nil ∧
    (sampleTool.Execute raxmlHost sampleFS).2.2 =
      [Event.ImagePull "docker.io/evolbioinfo/raxml:v8.2.11"] ++ [] ++
        [ Event.ContainerCreate sampleRequest,
          Event.ContainerStart "c1", Event.ContainerWait "c1", Event.ContainerLogs "c1" ] ++
        [Event.Rename ("/tmp/in" ++ "/RAxML_bestTree.TEST") sampleTool.outputtree] ∧
    "/tmp/in" ++ "/RAxML_bestTree.TEST" ∉ (raxmlHost.ContainerRun "c1" sampleFS).entries ∧
    (sampleTool.Execute raxmlHost sampleFS).2.1 = raxmlHost.ContainerRun "c1" sampleFS ∧
    sampleTool.outputtree ∉ (sampleTool.Execute raxmlHost sampleFS).2.1.entries :=
  have hw := Execute_rename_unchecked raxmlHost sampleFS sampleTool
    "docker.io/evolbioinfo/raxml:v8.2.11"
    { id := -1, indir := "", outdir := "", cl := [],
      name := "docker.io/evolbioinfo/raxml:v8.2.11" }
    [Event.ImagePull "docker.io/evolbioinfo/raxml:v8.2.11"]
    "/tmp/in" "/tmp/out"
    [ "raxmlHPC", "-f", "d", "-m", "GTRGAMMA", "-c", "4", "-s", "align.fa",
      "-n", "DOCKER", "-T", "3", "-p", "12345" ]
    sampleFS [] (raxmlHost.ContainerRun "c1" sampleFS)
    [ Event.ContainerCreate sampleRequest,
      Event.ContainerStart "c1", Event.ContainerWait "c1", Event.ContainerLogs "c1" ]
    (by rfl) (by rfl) (by rfl) (by rfl) (by rfl) (by rfl) (by rfl)
  ⟨hw.1, hw.2.1, by decide, (hw.2.2.2.2.2 (by decide)).2, by decide⟩

end Godocker
